import Mathlib

/-!
Verification of the SERP collection engine (serp-collector.js,
serp-collector-bfl-enhanced.js and the resumable variant).

The development shallowly embeds:
  * the per-task pagination-and-deduplication driver `getUniqueResults`
    of serp-collector.js, including its inner retry/backoff loop and
    its error classification by API error code and message substrings;
  * the `TaskQueue` bounded-concurrency scheduler of
    serp-collector-bfl-enhanced.js as a labelled transition system;
  * the progress-recording step of the resumable collector
    (completedTasks push + keyword snapshot write + saveProgress).

External effects are abstracted: the network fetch becomes an oracle
`fetch : page → attempt → Except ApiError (List SearchRec)`, timers are
dropped (backoff waits are returned as a list of durations so that the
backoff schedule itself stays observable).
-/

/-- Result record as parsed from one page of the upstream API.  The JS
objects carry `url`, `title`, `snippet`, …; only `url` steers control
flow (dedup key).  `url : Option String` models an absent field, and the
JS truthiness test `result.url` is `urlTruthy` below. -/
structure SearchRec where
  url : Option String
  title : String
  snippet : String
deriving DecidableEq

/-- Error thrown by the XmlRiver API wrapper: `code` (0 when the JS field
is absent, mirroring `requestError.code || 0`) and `message`. -/
structure ApiError where
  code : Nat
  msg : String
deriving DecidableEq

/-- Prefix test on character lists (helper for the substring test). -/
def startsWithChars : List Char → List Char → Bool
  | _, [] => true
  | [], _ :: _ => false
  | h :: hs, p :: ps => h == p && startsWithChars hs ps

/-- Substring occurrence test on character lists. -/
def hasSubChars (pat : List Char) : List Char → Bool
  | [] => pat.isEmpty
  | c :: rest => startsWithChars (c :: rest) pat || hasSubChars pat rest

/-- Embedding of JS `hay.includes(pat)` for the error-message checks. -/
def strIncludes (hay pat : String) : Bool :=
  hasSubChars pat.toList hay.toList

/-- Embedding of `isRetryableError` from getUniqueResults: error codes
500 and 111, or one of three designated message substrings, may be
retried. -/
def isRetryableError (e : ApiError) : Bool :=
  (e.code == 500 || e.code == 111) ||
  strIncludes e.msg "Выполните перезапрос" ||
  strIncludes e.msg "Ответ от поисковой системы не получен" ||
  strIncludes e.msg "Нет свободных каналов"

/-- Embedding of the code-15 "no results for this query" detection in the
outer catch of getUniqueResults (three message substrings). -/
def isNoResultsError (e : ApiError) : Bool :=
  strIncludes e.msg "Для заданного поискового запроса отсутствуют результаты поиска" ||
  strIncludes e.msg "отсутствуют результаты" ||
  strIncludes e.msg "code=\"15\""

/-- Embedding of the inner retry loop of getUniqueResults.
`fetchA attempt` is the outcome of the `attempt`-th identical API call
for the current page.  `retriesLeft` starts at `maxRetries` (the JS
counter `retries` starts at 0 and may only grow while
`retries < maxRetries`).  The second component records the successive
waits: the JS code waits `backoff` ms then doubles `backoff` before each
retry.  Returns the final fetch outcome together with the wait list. -/
def retryLoop (fetchA : Nat → Except ApiError (List SearchRec)) :
    Nat → Nat → Nat → Except ApiError (List SearchRec) × List Nat
  | retriesLeft, attempt, backoff =>
    match fetchA attempt with
    | .ok rs => (.ok rs, [])
    | .error e =>
      if isRetryableError e = true then
        match retriesLeft with
        | 0 => (.error e, [])
        | n + 1 =>
          let r := retryLoop fetchA n (attempt + 1) (backoff * 2)
          (r.1, backoff :: r.2)
      else (.error e, [])

theorem retryLoop_ok (fetchA : Nat → Except ApiError (List SearchRec))
    (left attempt b : Nat) (rs : List SearchRec) (h : fetchA attempt = .ok rs) :
    retryLoop fetchA left attempt b = (.ok rs, []) := by
  rw [retryLoop.eq_def]
  simp only [h]

theorem retryLoop_fatal (fetchA : Nat → Except ApiError (List SearchRec))
    (left attempt b : Nat) (e : ApiError) (h : fetchA attempt = .error e)
    (hr : isRetryableError e = false) :
    retryLoop fetchA left attempt b = (.error e, []) := by
  rw [retryLoop.eq_def]
  simp [h, hr]

theorem retryLoop_exhaust (fetchA : Nat → Except ApiError (List SearchRec))
    (attempt b : Nat) (e : ApiError) (h : fetchA attempt = .error e)
    (hr : isRetryableError e = true) :
    retryLoop fetchA 0 attempt b = (.error e, []) := by
  rw [retryLoop.eq_def]
  simp only [h, hr, if_true]

theorem retryLoop_retry (fetchA : Nat → Except ApiError (List SearchRec))
    (n attempt b : Nat) (e : ApiError) (h : fetchA attempt = .error e)
    (hr : isRetryableError e = true) :
    retryLoop fetchA (n + 1) attempt b =
      ((retryLoop fetchA n (attempt + 1) (b * 2)).1,
        b :: (retryLoop fetchA n (attempt + 1) (b * 2)).2) := by
  rw [retryLoop.eq_def]
  simp only [h, hr, if_true]

theorem retryLoop_waits (fetchA : Nat → Except ApiError (List SearchRec)) :
    ∀ (r left attempt b : Nat), r ≤ left →
    (∀ i, i < r → ∃ e, fetchA (attempt + i) = .error e ∧ isRetryableError e = true) →
    (∃ rs, fetchA (attempt + r) = .ok rs) →
    (retryLoop fetchA left attempt b).2 = (List.range r).map (fun i => b * 2 ^ i) := by
  intro r
  induction r with
  | zero =>
    intro left attempt b _ _ hsucc
    obtain ⟨rs, hrs⟩ := hsucc
    simp only [Nat.add_zero] at hrs
    rw [retryLoop_ok fetchA left attempt b rs hrs]
    simp
  | succ n ih =>
    intro left attempt b hle hfail hsucc
    obtain ⟨e, he, hret⟩ := hfail 0 (Nat.succ_pos n)
    simp only [Nat.add_zero] at he
    obtain ⟨m, rfl⟩ : ∃ m, left = m + 1 := ⟨left - 1, by omega⟩
    have tail := ih m (attempt + 1) (b * 2) (by omega)
      (fun i hi => by
        obtain ⟨e2, he2, hr2⟩ := hfail (i + 1) (by omega)
        exact ⟨e2, by rw [show attempt + 1 + i = attempt + (i + 1) by omega]; exact he2, hr2⟩)
      (by
        obtain ⟨rs, hrs⟩ := hsucc
        exact ⟨rs, by rw [show attempt + 1 + n = attempt + (n + 1) by omega]; exact hrs⟩)
    rw [retryLoop_retry fetchA m attempt b e he hret]
    simp only []
    rw [tail, List.range_succ_eq_map]
    simp only [List.map_cons, List.map_map, pow_zero, Nat.mul_one]
    congr 1
    apply List.map_congr_left
    intro i _
    simp only [Function.comp_apply]
    rw [pow_succ]
    ring

theorem geometric_wait_sum (b : Nat) :
    ∀ r : Nat, ((List.range r).map (fun i => b * 2 ^ i)).sum = b * (2 ^ r - 1) := by
  intro r
  induction r with
  | zero => simp
  | succ n ih =>
    rw [List.range_succ, List.map_append, List.sum_append, ih]
    have h1 : 1 ≤ 2 ^ n := Nat.one_le_two_pow
    simp only [List.map_cons, List.map_nil, List.sum_cons, List.sum_nil]
    have hstep : 2 ^ n - 1 + 2 ^ n = 2 ^ (n + 1) - 1 := by
      rw [pow_succ]
      omega
    calc b * (2 ^ n - 1) + (b * 2 ^ n + 0)
        = b * (2 ^ n - 1 + 2 ^ n) := by rw [Nat.mul_add]; omega
      _ = b * (2 ^ (n + 1) - 1) := by rw [hstep]

/-- C3: when the first `r` attempts of a page fetch fail with a retryable
error and the `(r+1)`-th succeeds (`r ≤ maxRetries`), the successive
waits are `initialBackoff * 2^0, …, initialBackoff * 2^(r-1)` and their
total equals `initialBackoff * (2^r - 1)`. -/
theorem backoff_schedule_total (fetchA : Nat → Except ApiError (List SearchRec))
    (maxRetries initialBackoff r : Nat) (hr : r ≤ maxRetries)
    (hfail : ∀ i, i < r → ∃ e, fetchA i = .error e ∧ isRetryableError e = true)
    (hsucc : ∃ rs, fetchA r = .ok rs) :
    (retryLoop fetchA maxRetries 0 initialBackoff).2 =
      (List.range r).map (fun i => initialBackoff * 2 ^ i) ∧
    ((retryLoop fetchA maxRetries 0 initialBackoff).2).sum =
      initialBackoff * (2 ^ r - 1) := by
  have hw := retryLoop_waits fetchA r maxRetries 0 initialBackoff hr
    (fun i hi => by simpa using hfail i hi) (by simpa using hsucc)
  exact ⟨hw, by rw [hw]; exact geometric_wait_sum initialBackoff r⟩

/-- Concrete fetch oracle: two retryable code-111 failures, then success. -/
def fetchBackoffW : Nat → Except ApiError (List SearchRec)
  | 0 => .error ⟨111, "Нет свободных каналов"⟩
  | 1 => .error ⟨111, "Нет свободных каналов"⟩
  | _ => .ok []

theorem backoff_schedule_total_witness :
    (retryLoop fetchBackoffW 5 0 1000).2 =
      (List.range 2).map (fun i => 1000 * 2 ^ i) ∧
    ((retryLoop fetchBackoffW 5 0 1000).2).sum = 1000 * (2 ^ 2 - 1) :=
  backoff_schedule_total fetchBackoffW 5 1000 2 (by omega)
    (fun i hi => by
      interval_cases i <;> exact ⟨⟨111, "Нет свободных каналов"⟩, rfl, by decide⟩)
    ⟨[], rfl⟩

/-- Which search engine a task targets (the `engine` string parameter of
getUniqueResults). -/
inductive Engine
  | yandex
  | google
deriving DecidableEq

/-- The `engine` string the JS code passes around and stores in the
empty-result placeholder. -/
def engineName : Engine → String
  | .yandex => "YANDEX"
  | .google => "GOOGLE"

/-- Starting page index: `let page = engine === 'YANDEX' ? 0 : 1`. -/
def startPage : Engine → Nat
  | .yandex => 0
  | .google => 1

/-- Collection parameters consumed by getUniqueResults
(CONFIG.collection). -/
structure CollectionConfig where
  targetUniqueResults : Nat
  maxPages : Nat
  maxRetries : Nat
  initialBackoff : Nat
deriving DecidableEq

/-- The concrete values of CONFIG.collection in serp-collector.js:
target 100 unique results, 5 pages, 5 retries, 1000 ms initial
backoff. -/
def cfgMain : CollectionConfig := ⟨100, 5, 5, 1000⟩

/-- One element of the `uniqueResults` array getUniqueResults returns:
either a deduplicated record enriched with `page` (1-based, via
PAGE_OFFSET) and `globalPosition`, or the `{empty: true, reason, query,
engine}` placeholder pushed when the upstream signals "no results for
this query" (the constant `reason` string is omitted). -/
inductive Entry
  | result (r : SearchRec) (page : Nat) (globalPosition : Nat)
  | emptyMark (query : String) (engine : String)
deriving DecidableEq

/-- The globalPosition field of an entry, if it has one. -/
def entryPos : Entry → Option Nat
  | .result _ _ g => some g
  | .emptyMark _ _ => none

/-- The url field of an entry, if it has one. -/
def entryUrl : Entry → Option String
  | .result r _ _ => r.url
  | .emptyMark _ _ => none

/-- Distinguishes real deduplicated records from the placeholder. -/
def isResultEntry : Entry → Bool
  | .result _ _ _ => true
  | .emptyMark _ _ => false

/-- JS truthiness of the `result.url` field. -/
def urlTruthy : Option String → Bool
  | none => false
  | some s => !(s == "")

/-- Embedding of the per-record dedup step inside getUniqueResults:
`if (result.url && !uniqueUrls.has(result.url)) { uniqueUrls.add(url);
uniqueResults.push({...result, page: page+PAGE_OFFSET, globalPosition:
uniqueResults.length + 1}); }`.  The state is the pair (uniqueUrls as an
ordered list, uniqueResults). -/
def addUnique (pageNum : Nat) (st : List String × List Entry) (r : SearchRec) :
    List String × List Entry :=
  match r.url with
  | some u =>
    if u ≠ "" ∧ u ∉ st.1 then
      (st.1 ++ [u], st.2 ++ [Entry.result r pageNum (st.2.length + 1)])
    else st
  | none => st

/-- Embedding of the `for (const result of pageResults)` dedup loop. -/
def processPage (pageNum : Nat) (seen : List String) (acc : List Entry)
    (rs : List SearchRec) : List String × List Entry :=
  rs.foldl (addUnique pageNum) (seen, acc)

/-- Why the pagination loop ended.  The JS function exits its while loop
four ways: target reached / page limit reached (loop guard), no new
unique results on a non-empty page (`break`), or the upstream
"no results" signal (`break` after pushing the placeholder).  A thrown
fatal error is the `Except.error` branch of the driver instead. -/
inductive StopReason
  | targetReached
  | maxPagesReached
  | noNewResults
  | emptyUpstream
deriving DecidableEq

/-- Observable outcome of one task: the returned uniqueResults array,
the number of pages actually fetched, and the stop reason. -/
structure TaskOutcome where
  uniqueResults : List Entry
  pagesFetched : Nat
  stopReason : StopReason
deriving DecidableEq

/-- Embedding of the `while (uniqueUrls.size < target && page < maxPages)`
pagination loop of getUniqueResults.  `fetch p a` is the outcome of the
`a`-th fetch attempt of page `p`; each iteration runs the inner retry
loop, then either processes the page's records, stops on the no-results
signal (pushing the placeholder), throws the task-level fatal error
(first page, nothing collected, code ≠ 111), or records the failure and
moves on.  `fuel` bounds the recursion; the driver below passes
`maxPages`, which over-approximates the remaining iterations
(`maxPages - page`), so the fuel-exhausted fallback is never taken. -/
def collectLoop (cfg : CollectionConfig)
    (fetch : Nat → Nat → Except ApiError (List SearchRec))
    (engine : Engine) (query : String) :
    Nat → Nat → List String → List Entry → Nat → Except String TaskOutcome
  | 0, _, _, acc, pages => .ok ⟨acc, pages, .maxPagesReached⟩
  | fuel + 1, page, seen, acc, pages =>
    if seen.length < cfg.targetUniqueResults then
      if page < cfg.maxPages then
        match (retryLoop (fetch page) cfg.maxRetries 0 cfg.initialBackoff).1 with
        | .ok rs =>
          if 0 < rs.length then
            let st := processPage (page + 1) seen acc rs
            if st.1.length - seen.length = 0 then
              .ok ⟨st.2, pages + 1, .noNewResults⟩
            else
              collectLoop cfg fetch engine query fuel (page + 1) st.1 st.2 (pages + 1)
          else
            collectLoop cfg fetch engine query fuel (page + 1) seen acc (pages + 1)
        | .error e =>
          if isNoResultsError e = true then
            .ok ⟨acc ++ [Entry.emptyMark query (engineName engine)], pages + 1, .emptyUpstream⟩
          else if page = startPage engine ∧ acc = [] ∧ e.code ≠ 111 then
            .error ("Критическая ошибка при получении данных: " ++ e.msg)
          else
            collectLoop cfg fetch engine query fuel (page + 1) seen acc (pages + 1)
      else .ok ⟨acc, pages, .maxPagesReached⟩
    else .ok ⟨acc, pages, .targetReached⟩

/-- Embedding of getUniqueResults: runs the pagination loop from the
engine's starting page with empty dedup state. -/
def getUniqueResults (cfg : CollectionConfig)
    (fetch : Nat → Nat → Except ApiError (List SearchRec))
    (engine : Engine) (query : String) : Except String TaskOutcome :=
  collectLoop cfg fetch engine query cfg.maxPages (startPage engine) [] [] 0

/-- Checks that the globalPosition fields of a list of entries are the
dense sequence `k, k+1, …`. -/
def denseFrom : Nat → List Entry → Bool
  | _, [] => true
  | k, e :: rest => (entryPos e == some k) && denseFrom (k + 1) rest

/-- Well-formedness of the returned uniqueResults array (ignoring any
placeholder): positions dense from 1, urls pairwise distinct, all
entries real records. -/
def CleanAcc (acc : List Entry) : Prop :=
  denseFrom 1 acc = true ∧ (acc.filterMap entryUrl).Nodup ∧ ∀ e ∈ acc, isResultEntry e = true

/-- Invariant tying the dedup set to the accumulated entries during the
pagination loop: the seen-url set is exactly the entries' urls in
insertion order, without duplicates; positions are dense from 1. -/
def DedupInv (seen : List String) (acc : List Entry) : Prop :=
  acc.filterMap entryUrl = seen ∧ seen.Nodup ∧ denseFrom 1 acc = true ∧
    ∀ e ∈ acc, isResultEntry e = true

theorem dedupInv_clean {seen : List String} {acc : List Entry}
    (h : DedupInv seen acc) : CleanAcc acc := by
  obtain ⟨h1, h2, h3, h4⟩ := h
  exact ⟨h3, h1 ▸ h2, h4⟩

theorem dedupInv_nil : DedupInv [] [] := by
  refine ⟨rfl, List.nodup_nil, rfl, ?_⟩
  intro e he
  cases he

theorem denseFrom_append (e : Entry) :
    ∀ (l : List Entry) (k : Nat), denseFrom k l = true →
    entryPos e = some (k + l.length) → denseFrom k (l ++ [e]) = true := by
  intro l
  induction l with
  | nil =>
    intro k _ hp
    simp only [List.nil_append, denseFrom, Bool.and_eq_true, beq_iff_eq]
    refine ⟨?_, trivial⟩
    rw [hp]
    simp
  | cons a t ih =>
    intro k h hp
    simp only [denseFrom, Bool.and_eq_true] at h
    simp only [List.cons_append, denseFrom, Bool.and_eq_true]
    refine ⟨h.1, ih (k + 1) h.2 ?_⟩
    rw [hp]
    congr 1
    simp [List.length_cons]
    omega

theorem addUnique_dedup (p : Nat) (st : List String × List Entry) (r : SearchRec)
    (h : DedupInv st.1 st.2) : DedupInv (addUnique p st r).1 (addUnique p st r).2 := by
  obtain ⟨h1, h2, h3, h4⟩ := h
  cases hu : r.url with
  | none => simpa [addUnique, hu] using ⟨h1, h2, h3, h4⟩
  | some u =>
    by_cases hc : u ≠ "" ∧ u ∉ st.1
    · simp only [addUnique, hu, if_pos hc]
      refine ⟨?_, ?_, ?_, ?_⟩
      · rw [List.filterMap_append, h1]
        simp [entryUrl, hu]
      · rw [List.nodup_append]
        exact ⟨h2, List.nodup_singleton u, by simpa using hc.2⟩
      · refine denseFrom_append _ st.2 1 h3 ?_
        simp [entryPos]
        omega
      · intro e he
        rcases List.mem_append.mp he with hmem | hmem
        · exact h4 e hmem
        · simp only [List.mem_singleton] at hmem
          subst hmem
          rfl
    · simpa [addUnique, hu, if_neg hc] using ⟨h1, h2, h3, h4⟩

theorem processPage_dedup (p : Nat) (rs : List SearchRec) :
    ∀ st : List String × List Entry, DedupInv st.1 st.2 →
    DedupInv (rs.foldl (addUnique p) st).1 (rs.foldl (addUnique p) st).2 := by
  induction rs with
  | nil => intro st h; exact h
  | cons r t ih =>
    intro st h
    exact ih (addUnique p st r) (addUnique_dedup p st r h)

theorem addUnique_cases (p : Nat) (st : List String × List Entry) (r : SearchRec) :
    addUnique p st r = st ∨
    ∃ u, r.url = some u ∧ u ≠ "" ∧ u ∉ st.1 ∧
      addUnique p st r = (st.1 ++ [u], st.2 ++ [Entry.result r p (st.2.length + 1)]) := by
  cases hu : r.url with
  | none => left; simp [addUnique, hu]
  | some u =>
    by_cases hc : u ≠ "" ∧ u ∉ st.1
    · right
      exact ⟨u, rfl, hc.1, hc.2, by simp [addUnique, hu, if_pos hc]⟩
    · left
      simp [addUnique, hu, if_neg hc]

theorem foldl_addUnique_mem (p : Nat) (rs : List SearchRec) :
    ∀ (st : List String × List Entry) (e : Entry),
    e ∈ (rs.foldl (addUnique p) st).2 →
    e ∈ st.2 ∨ ∃ u, entryUrl e = some u ∧ u ≠ "" := by
  induction rs with
  | nil => intro st e he; exact Or.inl he
  | cons r t ih =>
    intro st e he
    rcases ih (addUnique p st r) e he with hmem | hgood
    · rcases addUnique_cases p st r with heq | ⟨u, hu, hne, _, heq⟩
      · rw [heq] at hmem
        exact Or.inl hmem
      · rw [heq] at hmem
        rcases List.mem_append.mp hmem with hl | hr
        · exact Or.inl hl
        · simp only [List.mem_singleton] at hr
          subst hr
          exact Or.inr ⟨u, by simp [entryUrl, hu], hne⟩
    · exact Or.inr hgood

/-- C9: the per-record dedup step skips any record whose url is absent or
empty or already seen, leaving both the seen-url set and the accumulated
sequence untouched, and every entry a page appends carries a non-empty
url. -/
theorem dedup_skip_and_nonempty_urls (p : Nat) (st : List String × List Entry)
    (r : SearchRec) (seen : List String) (acc : List Entry) (rs : List SearchRec) :
    (urlTruthy r.url = false → addUnique p st r = st) ∧
    (∀ u, r.url = some u → u ∈ st.1 → addUnique p st r = st) ∧
    (∀ e, e ∈ (processPage p seen acc rs).2 →
      e ∈ acc ∨ ∃ u, entryUrl e = some u ∧ u ≠ "") := by
  refine ⟨?_, ?_, ?_⟩
  · intro hf
    cases hu : r.url with
    | none => simp [addUnique, hu]
    | some u =>
      rw [hu] at hf
      simp only [urlTruthy, Bool.not_eq_true'] at hf
      have : ¬(u ≠ "" ∧ u ∉ st.1) := by
        intro hcon
        exact hcon.1 (by simpa using hf)
      simp [addUnique, hu, if_neg this]
  · intro u hu hmem
    have : ¬(u ≠ "" ∧ u ∉ st.1) := by
      intro hcon
      exact hcon.2 hmem
    simp [addUnique, hu, if_neg this]
  · intro e he
    exact foldl_addUnique_mem p rs (seen, acc) e he

/-- Record used by the concrete witnesses below. -/
def recW (u : String) : SearchRec := ⟨some u, "t", "s"⟩

theorem dedup_skip_and_nonempty_urls_witness :
    (urlTruthy (recW "https://a").url = false →
      addUnique 1 (["https://a"], []) (recW "https://a") = (["https://a"], [])) ∧
    (∀ u, (recW "https://a").url = some u → u ∈ (["https://a"], ([] : List Entry)).1 →
      addUnique 1 (["https://a"], []) (recW "https://a") = (["https://a"], [])) ∧
    (∀ e, e ∈ (processPage 1 ["https://a"] [] [recW "https://a", recW "https://b"]).2 →
      e ∈ ([] : List Entry) ∨ ∃ u, entryUrl e = some u ∧ u ≠ "") :=
  dedup_skip_and_nonempty_urls 1 (["https://a"], []) (recW "https://a")
    ["https://a"] [] [recW "https://a", recW "https://b"]

theorem collectLoop_target (cfg : CollectionConfig)
    (fetch : Nat → Nat → Except ApiError (List SearchRec)) (engine : Engine)
    (query : String) (fuel page pages : Nat) (seen : List String) (acc : List Entry)
    (h1 : ¬ seen.length < cfg.targetUniqueResults) :
    collectLoop cfg fetch engine query (fuel + 1) page seen acc pages =
      .ok ⟨acc, pages, .targetReached⟩ := by
  simp only [collectLoop, if_neg h1]

theorem collectLoop_maxPages (cfg : CollectionConfig)
    (fetch : Nat → Nat → Except ApiError (List SearchRec)) (engine : Engine)
    (query : String) (fuel page pages : Nat) (seen : List String) (acc : List Entry)
    (h1 : seen.length < cfg.targetUniqueResults) (h2 : ¬ page < cfg.maxPages) :
    collectLoop cfg fetch engine query (fuel + 1) page seen acc pages =
      .ok ⟨acc, pages, .maxPagesReached⟩ := by
  simp only [collectLoop, if_pos h1, if_neg h2]

theorem collectLoop_okPage (cfg : CollectionConfig)
    (fetch : Nat → Nat → Except ApiError (List SearchRec)) (engine : Engine)
    (query : String) (fuel page pages : Nat) (seen : List String) (acc : List Entry)
    (rs : List SearchRec)
    (h1 : seen.length < cfg.targetUniqueResults) (h2 : page < cfg.maxPages)
    (hr : (retryLoop (fetch page) cfg.maxRetries 0 cfg.initialBackoff).1 = .ok rs)
    (hlen : 0 < rs.length) :
    collectLoop cfg fetch engine query (fuel + 1) page seen acc pages =
      (if (processPage (page + 1) seen acc rs).1.length - seen.length = 0 then
        .ok ⟨(processPage (page + 1) seen acc rs).2, pages + 1, .noNewResults⟩
      else
        collectLoop cfg fetch engine query fuel (page + 1)
          (processPage (page + 1) seen acc rs).1
          (processPage (page + 1) seen acc rs).2 (pages + 1)) := by
  simp only [collectLoop, if_pos h1, if_pos h2, hr, if_pos hlen]

theorem collectLoop_emptyOk (cfg : CollectionConfig)
    (fetch : Nat → Nat → Except ApiError (List SearchRec)) (engine : Engine)
    (query : String) (fuel page pages : Nat) (seen : List String) (acc : List Entry)
    (rs : List SearchRec)
    (h1 : seen.length < cfg.targetUniqueResults) (h2 : page < cfg.maxPages)
    (hr : (retryLoop (fetch page) cfg.maxRetries 0 cfg.initialBackoff).1 = .ok rs)
    (hlen : ¬ 0 < rs.length) :
    collectLoop cfg fetch engine query (fuel + 1) page seen acc pages =
      collectLoop cfg fetch engine query fuel (page + 1) seen acc (pages + 1) := by
  simp only [collectLoop, if_pos h1, if_pos h2, hr, if_neg hlen]

theorem collectLoop_noResultsSignal (cfg : CollectionConfig)
    (fetch : Nat → Nat → Except ApiError (List SearchRec)) (engine : Engine)
    (query : String) (fuel page pages : Nat) (seen : List String) (acc : List Entry)
    (e : ApiError)
    (h1 : seen.length < cfg.targetUniqueResults) (h2 : page < cfg.maxPages)
    (hr : (retryLoop (fetch page) cfg.maxRetries 0 cfg.initialBackoff).1 = .error e)
    (hnr : isNoResultsError e = true) :
    collectLoop cfg fetch engine query (fuel + 1) page seen acc pages =
      .ok ⟨acc ++ [Entry.emptyMark query (engineName engine)], pages + 1, .emptyUpstream⟩ := by
  simp only [collectLoop, if_pos h1, if_pos h2, hr, hnr, if_true]

theorem collectLoop_fatalThrow (cfg : CollectionConfig)
    (fetch : Nat → Nat → Except ApiError (List SearchRec)) (engine : Engine)
    (query : String) (fuel page pages : Nat) (seen : List String) (acc : List Entry)
    (e : ApiError)
    (h1 : seen.length < cfg.targetUniqueResults) (h2 : page < cfg.maxPages)
    (hr : (retryLoop (fetch page) cfg.maxRetries 0 cfg.initialBackoff).1 = .error e)
    (hnr : isNoResultsError e = false)
    (hc : page = startPage engine ∧ acc = [] ∧ e.code ≠ 111) :
    collectLoop cfg fetch engine query (fuel + 1) page seen acc pages =
      .error ("Критическая ошибка при получении данных: " ++ e.msg) := by
  simp only [collectLoop, if_pos h1, if_pos h2, hr, hnr]
  simp only [Bool.false_eq_true, if_false, if_pos hc]

theorem collectLoop_skipPage (cfg : CollectionConfig)
    (fetch : Nat → Nat → Except ApiError (List SearchRec)) (engine : Engine)
    (query : String) (fuel page pages : Nat) (seen : List String) (acc : List Entry)
    (e : ApiError)
    (h1 : seen.length < cfg.targetUniqueResults) (h2 : page < cfg.maxPages)
    (hr : (retryLoop (fetch page) cfg.maxRetries 0 cfg.initialBackoff).1 = .error e)
    (hnr : isNoResultsError e = false)
    (hc : ¬(page = startPage engine ∧ acc = [] ∧ e.code ≠ 111)) :
    collectLoop cfg fetch engine query (fuel + 1) page seen acc pages =
      collectLoop cfg fetch engine query fuel (page + 1) seen acc (pages + 1) := by
  simp only [collectLoop, if_pos h1, if_pos h2, hr, hnr]
  simp only [Bool.false_eq_true, if_false, if_neg hc]

theorem collectLoop_clean (cfg : CollectionConfig)
    (fetch : Nat → Nat → Except ApiError (List SearchRec)) (engine : Engine)
    (query : String) :
    ∀ (fuel page pages : Nat) (seen : List String) (acc : List Entry) (out : TaskOutcome),
    DedupInv seen acc →
    collectLoop cfg fetch engine query fuel page seen acc pages = .ok out →
    (out.stopReason = .emptyUpstream →
      ∃ core, out.uniqueResults = core ++ [Entry.emptyMark query (engineName engine)] ∧
        CleanAcc core) ∧
    (out.stopReason ≠ .emptyUpstream → CleanAcc out.uniqueResults) := by
  intro fuel
  induction fuel with
  | zero =>
    intro page pages seen acc out hinv hout
    simp only [collectLoop] at hout
    cases hout
    exact ⟨fun h => absurd h (by simp), fun _ => dedupInv_clean hinv⟩
  | succ f ih =>
    intro page pages seen acc out hinv hout
    by_cases h1 : seen.length < cfg.targetUniqueResults
    · by_cases h2 : page < cfg.maxPages
      · cases hres : (retryLoop (fetch page) cfg.maxRetries 0 cfg.initialBackoff).1 with
        | ok rs =>
          by_cases hlen : 0 < rs.length
          · rw [collectLoop_okPage cfg fetch engine query f page pages seen acc rs
              h1 h2 hres hlen] at hout
            have hinv2 : DedupInv (processPage (page + 1) seen acc rs).1
                (processPage (page + 1) seen acc rs).2 :=
              processPage_dedup (page + 1) rs (seen, acc) hinv
            by_cases hzero : (processPage (page + 1) seen acc rs).1.length - seen.length = 0
            · rw [if_pos hzero] at hout
              cases hout
              exact ⟨fun h => absurd h (by simp), fun _ => dedupInv_clean hinv2⟩
            · rw [if_neg hzero] at hout
              exact ih (page + 1) (pages + 1) _ _ out hinv2 hout
          · rw [collectLoop_emptyOk cfg fetch engine query f page pages seen acc rs
              h1 h2 hres hlen] at hout
            exact ih (page + 1) (pages + 1) seen acc out hinv hout
        | error e =>
          by_cases hnr : isNoResultsError e = true
          · rw [collectLoop_noResultsSignal cfg fetch engine query f page pages seen acc e
              h1 h2 hres hnr] at hout
            cases hout
            exact ⟨fun _ => ⟨acc, rfl, dedupInv_clean hinv⟩, fun h => absurd rfl h⟩
          · have hnrf : isNoResultsError e = false := by simpa using hnr
            by_cases hc : page = startPage engine ∧ acc = [] ∧ e.code ≠ 111
            · rw [collectLoop_fatalThrow cfg fetch engine query f page pages seen acc e
                h1 h2 hres hnrf hc] at hout
              exact Except.noConfusion hout
            · rw [collectLoop_skipPage cfg fetch engine query f page pages seen acc e
                h1 h2 hres hnrf hc] at hout
              exact ih (page + 1) (pages + 1) seen acc out hinv hout
      · rw [collectLoop_maxPages cfg fetch engine query f page pages seen acc h1 h2] at hout
        cases hout
        exact ⟨fun h => absurd h (by simp), fun _ => dedupInv_clean hinv⟩
    · rw [collectLoop_target cfg fetch engine query f page pages seen acc h1] at hout
      cases hout
      exact ⟨fun h => absurd h (by simp), fun _ => dedupInv_clean hinv⟩

theorem collectLoop_pages_le (cfg : CollectionConfig)
    (fetch : Nat → Nat → Except ApiError (List SearchRec)) (engine : Engine)
    (query : String) :
    ∀ (fuel page pages : Nat) (seen : List String) (acc : List Entry) (out : TaskOutcome),
    collectLoop cfg fetch engine query fuel page seen acc pages = .ok out →
    out.pagesFetched ≤ pages + (cfg.maxPages - page) := by
  intro fuel
  induction fuel with
  | zero =>
    intro page pages seen acc out hout
    simp only [collectLoop] at hout
    cases hout
    simp
  | succ f ih =>
    intro page pages seen acc out hout
    by_cases h1 : seen.length < cfg.targetUniqueResults
    · by_cases h2 : page < cfg.maxPages
      · cases hres : (retryLoop (fetch page) cfg.maxRetries 0 cfg.initialBackoff).1 with
        | ok rs =>
          by_cases hlen : 0 < rs.length
          · rw [collectLoop_okPage cfg fetch engine query f page pages seen acc rs
              h1 h2 hres hlen] at hout
            by_cases hzero : (processPage (page + 1) seen acc rs).1.length - seen.length = 0
            · rw [if_pos hzero] at hout
              cases hout
              simp only []
              omega
            · rw [if_neg hzero] at hout
              have := ih (page + 1) (pages + 1) _ _ out hout
              omega
          · rw [collectLoop_emptyOk cfg fetch engine query f page pages seen acc rs
              h1 h2 hres hlen] at hout
            have := ih (page + 1) (pages + 1) seen acc out hout
            omega
        | error e =>
          by_cases hnr : isNoResultsError e = true
          · rw [collectLoop_noResultsSignal cfg fetch engine query f page pages seen acc e
              h1 h2 hres hnr] at hout
            cases hout
            simp only []
            omega
          · have hnrf : isNoResultsError e = false := by simpa using hnr
            by_cases hc : page = startPage engine ∧ acc = [] ∧ e.code ≠ 111
            · rw [collectLoop_fatalThrow cfg fetch engine query f page pages seen acc e
                h1 h2 hres hnrf hc] at hout
              exact Except.noConfusion hout
            · rw [collectLoop_skipPage cfg fetch engine query f page pages seen acc e
                h1 h2 hres hnrf hc] at hout
              have := ih (page + 1) (pages + 1) seen acc out hout
              omega
      · rw [collectLoop_maxPages cfg fetch engine query f page pages seen acc h1 h2] at hout
        cases hout
        simp
    · rw [collectLoop_target cfg fetch engine query f page pages seen acc h1] at hout
      cases hout
      simp

/-- C4: the pagination loop runs only while
`uniqueUrls.size < targetUniqueResults ∧ page < maxPages`, so a task
never fetches more than `maxPages` pages. -/
theorem pages_fetched_le_maxPages (cfg : CollectionConfig)
    (fetch : Nat → Nat → Except ApiError (List SearchRec)) (engine : Engine)
    (query : String) (out : TaskOutcome)
    (h : getUniqueResults cfg fetch engine query = .ok out) :
    out.pagesFetched ≤ cfg.maxPages := by
  have := collectLoop_pages_le cfg fetch engine query cfg.maxPages (startPage engine)
    0 [] [] out h
  omega

/-- Fetch oracle for the C4 witness: every page succeeds with one fresh
record, so the run stops at the page limit. -/
def fetchPagesW : Nat → Nat → Except ApiError (List SearchRec)
  | p, _ => .ok [recW (Nat.repr p)]

theorem pages_fetched_le_maxPages_witness :
    (TaskOutcome.mk
      [Entry.result (recW "0") 1 1, Entry.result (recW "1") 2 2,
        Entry.result (recW "2") 3 3, Entry.result (recW "3") 4 4,
        Entry.result (recW "4") 5 5] 5 .maxPagesReached).pagesFetched ≤
      cfgMain.maxPages :=
  pages_fetched_le_maxPages cfgMain fetchPagesW .yandex "q" _ (by rfl)

/-- C1 (amended): every entry of the returned uniqueResults array except
a possible final empty-result placeholder is a real record; those records
carry `globalPosition` exactly 1..N with no gaps and pairwise-distinct
urls; only a task ended by the "no results" signal carries the trailing
placeholder (which has neither a globalPosition nor a url). -/
theorem unique_results_dense_nodup (cfg : CollectionConfig)
    (fetch : Nat → Nat → Except ApiError (List SearchRec)) (engine : Engine)
    (query : String) (out : TaskOutcome)
    (h : getUniqueResults cfg fetch engine query = .ok out) :
    (out.stopReason = .emptyUpstream →
      ∃ core, out.uniqueResults = core ++ [Entry.emptyMark query (engineName engine)] ∧
        CleanAcc core) ∧
    (out.stopReason ≠ .emptyUpstream → CleanAcc out.uniqueResults) :=
  collectLoop_clean cfg fetch engine query cfg.maxPages (startPage engine) 0 [] [] out
    dedupInv_nil h

/-- Config with target 3 for the dense-positions witness run. -/
def cfgDenseW : CollectionConfig := ⟨3, 5, 5, 1000⟩

/-- Fetch oracle for the dense-positions witness: every page returns the
same three distinct records. -/
def fetchDenseW : Nat → Nat → Except ApiError (List SearchRec) :=
  fun _ _ => .ok [recW "https://a", recW "https://b", recW "https://c"]

/-- Outcome of the dense-positions witness run. -/
def outDenseW : TaskOutcome :=
  ⟨[Entry.result (recW "https://a") 1 1, Entry.result (recW "https://b") 1 2,
    Entry.result (recW "https://c") 1 3], 1, .targetReached⟩

theorem unique_results_dense_nodup_witness :
    (outDenseW.stopReason = .emptyUpstream →
      ∃ core, outDenseW.uniqueResults =
          core ++ [Entry.emptyMark "qd" (engineName .yandex)] ∧ CleanAcc core) ∧
    (outDenseW.stopReason ≠ .emptyUpstream → CleanAcc outDenseW.uniqueResults) :=
  unique_results_dense_nodup cfgDenseW fetchDenseW .yandex "qd" outDenseW (by rfl)

/-- The code-15 error object exactly as the XMLRiver API produces it. -/
def errNoResults : ApiError :=
  ⟨15, "Для заданного поискового запроса отсутствуют результаты поиска"⟩

/-- Fetch oracle that always raises the code-15 "no results" signal. -/
def fetchEmptySignal : Nat → Nat → Except ApiError (List SearchRec) :=
  fun _ _ => .error errNoResults

theorem globalPosition_dense_counterexample :
    getUniqueResults cfgMain fetchEmptySignal .yandex "q1" =
      .ok ⟨[Entry.emptyMark "q1" "YANDEX"], 1, .emptyUpstream⟩ ∧
    denseFrom 1 [Entry.emptyMark "q1" "YANDEX"] = false :=
  ⟨rfl, rfl⟩

/-- C2 (amended): an error carrying the "no results for this query"
signal (and not matching any retryable pattern) aborts the retry loop at
once — no waits, hence no retry — and short-circuits the task to
EmptyUpstream as a normal (non-error) outcome whose uniqueResults array
is the entries collected so far plus one `{empty: true}` placeholder; in
particular it holds exactly one placeholder entry, not zero entries, when
the signal arrives on the first page. -/
theorem empty_signal_short_circuit (cfg : CollectionConfig)
    (fetch : Nat → Nat → Except ApiError (List SearchRec)) (engine : Engine)
    (query : String) (f page pages : Nat) (seen : List String) (acc : List Entry)
    (e : ApiError)
    (h1 : seen.length < cfg.targetUniqueResults) (h2 : page < cfg.maxPages)
    (hfirst : fetch page 0 = .error e)
    (hnret : isRetryableError e = false)
    (hnr : isNoResultsError e = true) :
    retryLoop (fetch page) cfg.maxRetries 0 cfg.initialBackoff = (.error e, []) ∧
    collectLoop cfg fetch engine query (f + 1) page seen acc pages =
      .ok ⟨acc ++ [Entry.emptyMark query (engineName engine)], pages + 1, .emptyUpstream⟩ := by
  have hrl := retryLoop_fatal (fetch page) cfg.maxRetries 0 cfg.initialBackoff e hfirst hnret
  exact ⟨hrl, collectLoop_noResultsSignal cfg fetch engine query f page pages seen acc e
    h1 h2 (by rw [hrl]) hnr⟩

theorem empty_signal_short_circuit_witness :
    retryLoop (fetchEmptySignal 0) cfgMain.maxRetries 0 cfgMain.initialBackoff =
      (.error errNoResults, []) ∧
    collectLoop cfgMain fetchEmptySignal .yandex "qe" (4 + 1) 0 [] [] 0 =
      .ok ⟨[] ++ [Entry.emptyMark "qe" (engineName .yandex)], 0 + 1, .emptyUpstream⟩ :=
  empty_signal_short_circuit cfgMain fetchEmptySignal .yandex "qe" 4 0 0 [] []
    errNoResults (by decide) (by decide) rfl (by decide) (by decide)

/-- Error whose message carries the `code="15"` marker. -/
def errCode15 : ApiError := ⟨15, "Ошибка API: code=\"15\""⟩

/-- Fetch oracle raising the code-15 marker variant of the signal. -/
def fetchEmptySignal2 : Nat → Nat → Except ApiError (List SearchRec) :=
  fun _ _ => .error errCode15

theorem empty_signal_zero_results_counterexample :
    getUniqueResults cfgMain fetchEmptySignal2 .google "q2" =
      .ok ⟨[Entry.emptyMark "q2" "GOOGLE"], 1, .emptyUpstream⟩ ∧
    ([Entry.emptyMark "q2" "GOOGLE"] : List Entry).length ≠ 0 :=
  ⟨rfl, by decide⟩

/-- C5 (amended): a fetched page that succeeds with at least one record
but contributes zero new unique identifiers stops the task immediately
with NoNewResults; a successful page with an empty record list does NOT
trigger this stop (the loop just moves to the next page). -/
theorem no_new_results_stops (cfg : CollectionConfig)
    (fetch : Nat → Nat → Except ApiError (List SearchRec)) (engine : Engine)
    (query : String) (f page pages : Nat) (seen : List String) (acc : List Entry)
    (rs : List SearchRec)
    (h1 : seen.length < cfg.targetUniqueResults) (h2 : page < cfg.maxPages)
    (hr : (retryLoop (fetch page) cfg.maxRetries 0 cfg.initialBackoff).1 = .ok rs)
    (hlen : 0 < rs.length)
    (hzero : (processPage (page + 1) seen acc rs).1.length - seen.length = 0) :
    collectLoop cfg fetch engine query (f + 1) page seen acc pages =
      .ok ⟨(processPage (page + 1) seen acc rs).2, pages + 1, .noNewResults⟩ := by
  rw [collectLoop_okPage cfg fetch engine query f page pages seen acc rs h1 h2 hr hlen,
    if_pos hzero]

/-- Fetch oracle for the NoNewResults witness: every page returns the
same records {a, b, c} (the spec scenario). -/
def fetchRepeatW : Nat → Nat → Except ApiError (List SearchRec) :=
  fun _ _ => .ok [recW "https://a", recW "https://b", recW "https://c"]

theorem no_new_results_stops_witness :
    collectLoop cfgMain fetchRepeatW .yandex "qn" (3 + 1) 1
      ["https://a", "https://b", "https://c"]
      [Entry.result (recW "https://a") 1 1, Entry.result (recW "https://b") 1 2,
        Entry.result (recW "https://c") 1 3] 1 =
      .ok ⟨(processPage (1 + 1) ["https://a", "https://b", "https://c"]
          [Entry.result (recW "https://a") 1 1, Entry.result (recW "https://b") 1 2,
            Entry.result (recW "https://c") 1 3]
          [recW "https://a", recW "https://b", recW "https://c"]).2,
        1 + 1, .noNewResults⟩ :=
  no_new_results_stops cfgMain fetchRepeatW .yandex "qn" 3 1 1
    ["https://a", "https://b", "https://c"]
    [Entry.result (recW "https://a") 1 1, Entry.result (recW "https://b") 1 2,
      Entry.result (recW "https://c") 1 3]
    [recW "https://a", recW "https://b", recW "https://c"]
    (by decide) (by decide) rfl (by decide) (by decide)

/-- Config for the NoNewResults counterexample run. -/
def cfgC5 : CollectionConfig := ⟨100, 3, 2, 100⟩

/-- Fetch oracle for the NoNewResults counterexample: page 1 succeeds
with an empty record list (zero new unique identifiers), page 2 has a
fresh record. -/
def fetchC5 : Nat → Nat → Except ApiError (List SearchRec)
  | 0, _ => .ok [recW "https://a"]
  | 1, _ => .ok []
  | _, _ => .ok [recW "https://b"]

theorem no_new_results_counterexample :
    fetchC5 1 0 = .ok ([] : List SearchRec) ∧
    getUniqueResults cfgC5 fetchC5 .yandex "q5" =
      .ok ⟨[Entry.result (recW "https://a") 1 1, Entry.result (recW "https://b") 3 2],
        3, .maxPagesReached⟩ :=
  ⟨rfl, rfl⟩

/-- Tests whether the driver threw (the task-level fatal error). -/
def isErrorResult : Except String TaskOutcome → Bool
  | .error _ => true
  | .ok _ => false

/-- C7 (amended): when a page's retries are exhausted (or the error is
non-retryable) and the error is not the "no results" signal, the task
throws the fatal error only if this is the very first page, nothing has
been collected, AND the error code is not 111; in every other case —
including a first-page terminal failure with code 111 — the page is
abandoned and pagination continues with the next page. -/
theorem first_page_fatal_escalation (cfg : CollectionConfig)
    (fetch : Nat → Nat → Except ApiError (List SearchRec)) (engine : Engine)
    (query : String) (f page pages : Nat) (seen : List String) (acc : List Entry)
    (e : ApiError)
    (h1 : seen.length < cfg.targetUniqueResults) (h2 : page < cfg.maxPages)
    (hr : (retryLoop (fetch page) cfg.maxRetries 0 cfg.initialBackoff).1 = .error e)
    (hnr : isNoResultsError e = false) :
    (page = startPage engine → acc = [] → e.code ≠ 111 →
      collectLoop cfg fetch engine query (f + 1) page seen acc pages =
        .error ("Критическая ошибка при получении данных: " ++ e.msg)) ∧
    (¬(page = startPage engine ∧ acc = [] ∧ e.code ≠ 111) →
      collectLoop cfg fetch engine query (f + 1) page seen acc pages =
        collectLoop cfg fetch engine query f (page + 1) seen acc (pages + 1)) := by
  constructor
  · intro ha hb hc
    exact collectLoop_fatalThrow cfg fetch engine query f page pages seen acc e
      h1 h2 hr hnr ⟨ha, hb, hc⟩
  · intro hc
    exact collectLoop_skipPage cfg fetch engine query f page pages seen acc e
      h1 h2 hr hnr hc

/-- Non-retryable authentication-style error (code 1). -/
def errAuth : ApiError := ⟨1, "Ошибка авторизации пользователя"⟩

/-- Fetch oracle that always fails with the fatal auth error. -/
def fetchAuthFail : Nat → Nat → Except ApiError (List SearchRec) :=
  fun _ _ => .error errAuth

theorem first_page_fatal_escalation_witness :
    (0 = startPage Engine.yandex → ([] : List Entry) = [] → errAuth.code ≠ 111 →
      collectLoop cfgMain fetchAuthFail .yandex "qf" (4 + 1) 0 [] [] 0 =
        .error ("Критическая ошибка при получении данных: " ++ errAuth.msg)) ∧
    (¬(0 = startPage Engine.yandex ∧ ([] : List Entry) = [] ∧ errAuth.code ≠ 111) →
      collectLoop cfgMain fetchAuthFail .yandex "qf" (4 + 1) 0 [] [] 0 =
        collectLoop cfgMain fetchAuthFail .yandex "qf" 4 (0 + 1) [] [] (0 + 1)) :=
  first_page_fatal_escalation cfgMain fetchAuthFail .yandex "qf" 4 0 0 [] []
    errAuth (by decide) (by decide) (by rfl) (by decide)

/-- Config for the code-111 first-page counterexample (target 1, three
pages, a single retry). -/
def cfgC7 : CollectionConfig := ⟨1, 3, 1, 100⟩

/-- Fetch oracle: page 0 always fails with the retryable code-111 error
until retries are exhausted; page 1 succeeds. -/
def fetchC7 : Nat → Nat → Except ApiError (List SearchRec)
  | 0, _ => .error ⟨111, "Нет свободных каналов"⟩
  | _, _ => .ok [recW "https://a"]

theorem first_page_fatal_counterexample :
    isErrorResult (getUniqueResults cfgC7 fetchC7 .yandex "q7") = false ∧
    getUniqueResults cfgC7 fetchC7 .yandex "q7" =
      .ok ⟨[Entry.result (recW "https://a") 2 1], 2, .targetReached⟩ :=
  ⟨rfl, rfl⟩


/-- State of the `TaskQueue` class of serp-collector-bfl-enhanced.js.
`running` and `pending` are the class fields (`this.running`,
`this.queue`, tasks named by distinct Nat ids); `inflight`, `arrivalsLog`,
`startedLog` and `settledLog` are history variables recording which tasks
have been enqueued / dequeued / settled (with the value the promise
settled with), in order. -/
structure QState where
  running : Int
  pending : List Nat
  inflight : List Nat
  arrivalsLog : List Nat
  startedLog : List Nat
  settledLog : List (Nat × Except String Nat)

/-- Ids of the settled tasks, in settlement order. -/
def settledKeys (s : QState) : List Nat := s.settledLog.map Prod.fst

/-- A fresh TaskQueue: `this.running = 0; this.queue = []`. -/
def qInit : QState := ⟨0, [], [], [], [], []⟩

/-- Embedding of `TaskQueue.next()`: if a slot is free and the queue is
non-empty, shift the queue head and increment `running`. -/
def tryNext (c : Int) (s : QState) : QState :=
  match s.pending with
  | [] => s
  | t :: rest =>
    if s.running ≥ c then s
    else
      { running := s.running + 1, pending := rest, inflight := s.inflight ++ [t],
        arrivalsLog := s.arrivalsLog, startedLog := s.startedLog ++ [t],
        settledLog := s.settledLog }

/-- Embedding of `TaskQueue.add(task)`: push onto the queue, then
`next()`. -/
def qAdd (c : Int) (t : Nat) (s : QState) : QState :=
  tryNext c
    { s with
      pending := s.pending ++ [t],
      arrivalsLog := s.arrivalsLog ++ [t] }

/-- Embedding of the `.then`/`.catch` continuation of a started task:
`this.running--`, resolve or reject the promise of `t` with the task's
own result `v`, then `next()`. -/
def qSettle (c : Int) (t : Nat) (v : Except String Nat) (s : QState) : QState :=
  tryNext c
    { s with
      running := s.running - 1,
      inflight := s.inflight.erase t,
      settledLog := s.settledLog ++ [(t, v)] }

/-- Events of the queue: a caller adds a fresh task; a started task's
promise settles (once — JS fires then/catch once per promise). -/
inductive QStep (c : Int) : QState → QState → Prop
  | add (t : Nat) (s : QState) (h : t ∉ s.arrivalsLog) : QStep c s (qAdd c t s)
  | settle (t : Nat) (v : Except String Nat) (s : QState) (h : t ∈ s.inflight) :
      QStep c s (qSettle c t v s)

/-- States the queue can be in after any interleaving of events. -/
inductive QReachable (c : Int) : QState → Prop
  | init : QReachable c qInit
  | step {s s2 : QState} (hr : QReachable c s) (hs : QStep c s s2) : QReachable c s2

/-- Inductive invariant of the queue. -/
structure QInv (c : Int) (s : QState) : Prop where
  run_inflight : s.running = (s.inflight.length : Int)
  run_le : s.running ≤ c
  fifo : s.startedLog ++ s.pending = s.arrivalsLog
  arrivals_nodup : s.arrivalsLog.Nodup
  started_count : s.startedLog.length = s.settledLog.length + s.inflight.length
  settled_nodup : (settledKeys s).Nodup
  inflight_nodup : s.inflight.Nodup
  inflight_not_settled : ∀ t ∈ s.inflight, t ∉ settledKeys s
  inflight_started : ∀ t ∈ s.inflight, t ∈ s.startedLog
  settled_started : ∀ t ∈ settledKeys s, t ∈ s.startedLog

theorem qInv_tryNext (c : Int) (s : QState) (h : QInv c s) : QInv c (tryNext c s) := by
  unfold tryNext
  cases hp : s.pending with
  | nil => exact h
  | cons t rest =>
    by_cases hrun : s.running ≥ c
    · simp only [if_pos hrun]
      exact h
    · simp only [if_neg hrun]
      have hdisj : ∀ x ∈ s.pending, x ∉ s.startedLog := by
        intro x hx hx2
        have hnd := h.fifo ▸ h.arrivals_nodup
        rw [List.nodup_append] at hnd
        exact hnd.2.2 hx2 hx
      have htp : t ∈ s.pending := by
        rw [hp]
        exact List.mem_cons_self t rest
      have hts : t ∉ s.startedLog := hdisj t htp
      have hti : t ∉ s.inflight := fun hx => hts (h.inflight_started t hx)
      have htk : t ∉ settledKeys s := fun hx => hts (h.settled_started t hx)
      refine ⟨?_, ?_, ?_, h.arrivals_nodup, ?_, h.settled_nodup, ?_, ?_, ?_, ?_⟩
      · show s.running + 1 = ((s.inflight ++ [t]).length : Int)
        rw [List.length_append, List.length_singleton, h.run_inflight]
        push_cast
        ring
      · show s.running + 1 ≤ c
        omega
      · show (s.startedLog ++ [t]) ++ rest = s.arrivalsLog
        rw [List.append_assoc, List.singleton_append, ← hp]
        exact h.fifo
      · show (s.startedLog ++ [t]).length = s.settledLog.length + (s.inflight ++ [t]).length
        rw [List.length_append, List.length_append, List.length_singleton,
          h.started_count]
        omega
      · show (s.inflight ++ [t]).Nodup
        rw [List.nodup_append]
        exact ⟨h.inflight_nodup, List.nodup_singleton t, by simpa using hti⟩
      · show ∀ x ∈ s.inflight ++ [t], x ∉ settledKeys s
        intro x hx
        rcases List.mem_append.mp hx with hx | hx
        · exact h.inflight_not_settled x hx
        · simp only [List.mem_singleton] at hx
          subst hx
          exact htk
      · show ∀ x ∈ s.inflight ++ [t], x ∈ s.startedLog ++ [t]
        intro x hx
        rcases List.mem_append.mp hx with hx | hx
        · exact List.mem_append_left _ (h.inflight_started x hx)
        · exact List.mem_append_right _ hx
      · show ∀ x ∈ settledKeys s, x ∈ s.startedLog ++ [t]
        intro x hx
        exact List.mem_append_left _ (h.settled_started x hx)

theorem qInv_add (c : Int) (t : Nat) (s : QState) (h : QInv c s)
    (hf : t ∉ s.arrivalsLog) : QInv c (qAdd c t s) := by
  apply qInv_tryNext
  refine ⟨h.run_inflight, h.run_le, ?_, ?_, h.started_count, h.settled_nodup,
    h.inflight_nodup, h.inflight_not_settled, h.inflight_started, h.settled_started⟩
  · show s.startedLog ++ (s.pending ++ [t]) = s.arrivalsLog ++ [t]
    rw [← List.append_assoc, h.fifo]
  · show (s.arrivalsLog ++ [t]).Nodup
    rw [List.nodup_append]
    exact ⟨h.arrivals_nodup, List.nodup_singleton t, by simpa using hf⟩

theorem qInv_settle (c : Int) (t : Nat) (v : Except String Nat) (s : QState)
    (h : QInv c s) (hin : t ∈ s.inflight) : QInv c (qSettle c t v s) := by
  apply qInv_tryNext
  have hlen : (s.inflight.erase t).length = s.inflight.length - 1 :=
    List.length_erase_of_mem hin
  have hpos : 0 < s.inflight.length :=
    List.length_pos.mpr (fun hnil => by
      rw [hnil] at hin
      cases hin)
  have hkeys : (s.settledLog ++ [(t, v)]).map Prod.fst = settledKeys s ++ [t] := by
    simp [settledKeys]
  refine ⟨?_, ?_, h.fifo, h.arrivals_nodup, ?_, ?_, ?_, ?_, ?_, ?_⟩
  · show s.running - 1 = ((s.inflight.erase t).length : Int)
    rw [hlen]
    have := h.run_inflight
    omega
  · show s.running - 1 ≤ c
    have := h.run_le
    omega
  · show s.startedLog.length = (s.settledLog ++ [(t, v)]).length + (s.inflight.erase t).length
    rw [List.length_append, List.length_singleton, hlen, h.started_count]
    omega
  · show ((s.settledLog ++ [(t, v)]).map Prod.fst).Nodup
    rw [hkeys, List.nodup_append]
    exact ⟨h.settled_nodup, List.nodup_singleton t,
      by simpa using h.inflight_not_settled t hin⟩
  · show (s.inflight.erase t).Nodup
    exact h.inflight_nodup.erase t
  · show ∀ x ∈ s.inflight.erase t, x ∉ (s.settledLog ++ [(t, v)]).map Prod.fst
    intro x hx
    rw [hkeys]
    have hx2 : x ≠ t ∧ x ∈ s.inflight := (h.inflight_nodup.mem_erase_iff).mp hx
    intro hmem
    rcases List.mem_append.mp hmem with hm | hm
    · exact h.inflight_not_settled x hx2.2 hm
    · simp only [List.mem_singleton] at hm
      exact hx2.1 hm
  · show ∀ x ∈ s.inflight.erase t, x ∈ s.startedLog
    intro x hx
    exact h.inflight_started x (List.erase_subset _ _ hx)
  · show ∀ x ∈ (s.settledLog ++ [(t, v)]).map Prod.fst, x ∈ s.startedLog
    intro x hx
    rw [hkeys] at hx
    rcases List.mem_append.mp hx with hm | hm
    · exact h.settled_started x hm
    · simp only [List.mem_singleton] at hm
      subst hm
      exact h.inflight_started x hin

theorem qReachable_inv (c : Int) (hc : 0 ≤ c) (s : QState)
    (h : QReachable c s) : QInv c s := by
  induction h with
  | init =>
    refine ⟨rfl, hc, rfl, List.nodup_nil, rfl, List.nodup_nil, List.nodup_nil,
      ?_, ?_, ?_⟩ <;> intro x hx <;> cases hx
  | @step s1 s2 hr hs ih =>
    cases hs with
    | add t _ hf => exact qInv_add c t s1 ih hf
    | settle t v _ hin => exact qInv_settle c t v s1 ih hin

/-- C6: in every reachable TaskQueue state the running count never
exceeds the concurrency limit `c`, and waiting tasks are released in
strict FIFO order: the tasks started so far followed by the still-queued
tasks are exactly the arrivals, in arrival order (so the next task
released is always the oldest waiting one, and release happens inside
the same `next()` call that frees or finds a slot). -/
theorem task_queue_bounded_fifo (c : Int) (s : QState) (hc : 0 ≤ c)
    (h : QReachable c s) :
    s.running ≤ c ∧ s.startedLog ++ s.pending = s.arrivalsLog :=
  ⟨(qReachable_inv c hc s h).run_le, (qReachable_inv c hc s h).fifo⟩

/-- Queue state reached by: add task 0 to a 1-slot queue (starts), add
task 1 (queued), task 0 settles (task 1 starts). -/
def qTraceW : QState := qSettle 1 0 (.ok 5) (qAdd 1 1 (qAdd 1 0 qInit))

theorem task_queue_bounded_fifo_witness :
    (qAdd 7 0 qInit).running ≤ 7 ∧
    (qAdd 7 0 qInit).startedLog ++ (qAdd 7 0 qInit).pending =
      (qAdd 7 0 qInit).arrivalsLog :=
  task_queue_bounded_fifo 7 (qAdd 7 0 qInit) (by decide)
    (QReachable.step QReachable.init (QStep.add 0 qInit (by decide)))

/-- Helper: in an association list whose keys are duplicate-free, a key
determines its value. -/
theorem nodup_keys_unique {α : Type} :
    ∀ (l : List (Nat × α)), (l.map Prod.fst).Nodup →
    ∀ (t : Nat) (v w : α), (t, v) ∈ l → (t, w) ∈ l → v = w := by
  intro l
  induction l with
  | nil =>
    intro _ t v w hv _
    cases hv
  | cons a tl ih =>
    intro hnd t v w hv hw
    obtain ⟨ak, av⟩ := a
    simp only [List.map_cons, List.nodup_cons] at hnd
    rcases List.mem_cons.mp hv with hv1 | hv1 <;>
      rcases List.mem_cons.mp hw with hw1 | hw1
    · rw [Prod.mk.injEq] at hv1 hw1
      rw [hv1.2, hw1.2]
    · exfalso
      rw [Prod.mk.injEq] at hv1
      exact hnd.1 (hv1.1 ▸ List.mem_map_of_mem Prod.fst hw1)
    · exfalso
      rw [Prod.mk.injEq] at hw1
      exact hnd.1 (hw1.1 ▸ List.mem_map_of_mem Prod.fst hv1)
    · exact ih hnd.2 t v w hv1 hw1

/-- C10: in every reachable state the running counter equals the number
of in-flight tasks (so it is never negative): it was incremented exactly
once per started task and decremented exactly once per settlement,
whether the task resolved or rejected.  Each task starts at most once,
each started task settles at most once, and a task's promise carries a
unique settlement value (the task's own result or error). -/
theorem task_queue_counter_settle_once (c : Int) (s : QState) (hc : 0 ≤ c)
    (h : QReachable c s) :
    s.running = (s.inflight.length : Int) ∧ 0 ≤ s.running ∧
    s.startedLog.Nodup ∧ (settledKeys s).Nodup ∧
    s.startedLog.length = s.settledLog.length + s.inflight.length ∧
    (∀ t v w, (t, v) ∈ s.settledLog → (t, w) ∈ s.settledLog → v = w) := by
  have inv := qReachable_inv c hc s h
  have hstarted : s.startedLog.Nodup := by
    have hnd := inv.fifo ▸ inv.arrivals_nodup
    rw [List.nodup_append] at hnd
    exact hnd.1
  refine ⟨inv.run_inflight, ?_, hstarted, inv.settled_nodup, inv.started_count, ?_⟩
  · rw [inv.run_inflight]
    exact_mod_cast Nat.zero_le _
  · exact nodup_keys_unique s.settledLog inv.settled_nodup

theorem task_queue_counter_settle_once_witness :
    qTraceW.running = (qTraceW.inflight.length : Int) ∧ 0 ≤ qTraceW.running ∧
    qTraceW.startedLog.Nodup ∧ (settledKeys qTraceW).Nodup ∧
    qTraceW.startedLog.length = qTraceW.settledLog.length + qTraceW.inflight.length ∧
    (∀ t v w, (t, v) ∈ qTraceW.settledLog → (t, w) ∈ qTraceW.settledLog → v = w) :=
  task_queue_counter_settle_once 1 qTraceW (by decide)
    (QReachable.step
      (QReachable.step
        (QReachable.step QReachable.init (QStep.add 0 qInit (by decide)))
        (QStep.add 1 (qAdd 1 0 qInit) (by decide)))
      (QStep.settle 0 (.ok 5) (qAdd 1 1 (qAdd 1 0 qInit)) (by decide)))

/-- In-memory checkpoint state of the resumable collector: the
`progress.completedTasks` list of (keyword, cityName) records, and the
`allResults.citiesData[city].keywords` object map, flattened to an
association list keyed by (keyword, cityName).  `α` is the stored outcome
payload (the `{yandex, google, timestamp}` object). -/
structure ProgressState (α : Type) where
  completedTasks : List (String × String)
  keywordsData : List ((String × String) × α)

/-- Object-map access `citiesData[city].keywords[keyword]`. -/
def findRecord {α : Type} : List ((String × String) × α) → (String × String) → Option α
  | [], _ => none
  | (k, v) :: rest, key => if key = k then some v else findRecord rest key

/-- Embedding of `isTaskCompleted(progress, keyword, cityName)`: a linear
scan of completedTasks (this run-level guard is what keeps a key from
being recorded twice during one run). -/
def isTaskCompleted {α : Type} (p : ProgressState α) (key : String × String) : Bool :=
  p.completedTasks.any (fun k => k == key)

/-- Embedding of the completion handler of the resumable collector's main
function: write `keywords[keyword]` only if it is absent
(`if (!allResults.citiesData[city.name].keywords[keyword]) …`), push a
`completedTasks` record unconditionally, then `saveProgress` persists the
whole structure. -/
def recordCompleted {α : Type} (p : ProgressState α) (key : String × String)
    (outcome : α) : ProgressState α :=
  { completedTasks := p.completedTasks ++ [key],
    keywordsData :=
      if (findRecord p.keywordsData key).isNone then p.keywordsData ++ [(key, outcome)]
      else p.keywordsData }

theorem findRecord_append_none {α : Type} (l l2 : List ((String × String) × α))
    (k : String × String) (h : findRecord l k = none) :
    findRecord (l ++ l2) k = findRecord l2 k := by
  induction l with
  | nil => rfl
  | cons a tl ih =>
    obtain ⟨ak, av⟩ := a
    by_cases hk : k = ak
    · rw [findRecord, if_pos hk] at h
      cases h
    · rw [List.cons_append, findRecord, if_neg hk]
      rw [findRecord, if_neg hk] at h
      exact ih h

/-- C8 (amended): recording a completed task appends a completedTasks
record unconditionally — a second call for the same key accumulates a
duplicate record rather than overwriting — and writes the keyword
snapshot only when the key is absent, so for a repeated key the FIRST
call's outcome is kept, not the later one; within one run a key is
recorded only once because completed keys are filtered out by
isTaskCompleted before enqueueing. -/
theorem record_completed_append_first_wins {α : Type} (p : ProgressState α)
    (key : String × String) (outcome : α) :
    (recordCompleted p key outcome).completedTasks = p.completedTasks ++ [key] ∧
    findRecord (recordCompleted p key outcome).keywordsData key =
      some ((findRecord p.keywordsData key).getD outcome) := by
  refine ⟨rfl, ?_⟩
  cases hl : findRecord p.keywordsData key with
  | none =>
    simp only [recordCompleted, hl, Option.isNone_none, if_true, Option.getD_none]
    rw [findRecord_append_none p.keywordsData [(key, outcome)] key hl]
    simp [findRecord]
  | some v =>
    simp only [recordCompleted, hl, Option.isNone_some, Option.getD_some]
    rw [if_neg (by simp)]
    exact hl

/-- The doubly-recorded progress state: the same task key recorded twice
with different outcomes 1 and 2. -/
def pDouble : ProgressState Nat :=
  recordCompleted
    (recordCompleted ⟨[], []⟩ ("банкротство физических лиц", "Москва") 1)
    ("банкротство физических лиц", "Москва") 2

theorem record_completed_counterexample :
    pDouble.completedTasks =
      [("банкротство физических лиц", "Москва"), ("банкротство физических лиц", "Москва")] ∧
    findRecord pDouble.keywordsData ("банкротство физических лиц", "Москва") = some 1 ∧
    findRecord pDouble.keywordsData ("банкротство физических лиц", "Москва") ≠ some 2 :=
  ⟨rfl, rfl, by decide⟩
